import Mathlib

/-
Verification development for the course-material RAG backend.

Part I embeds the orchestration loop of src/backend/ai_generator.py
(AIGenerator.generate_response, _execute_sequential_rounds, _execute_tools)
as pure Lean functions.  The reasoning engine is modelled as a script
`Engine : Nat → EngineResponse` giving the response to the i-th
`messages.create` call; every entry of the returned request log
corresponds to exactly one such call, so the number of engine calls of a
run equals the length of the request log.  A Python exception raised by
`response.content[0].text` is modelled by the `PyError` error channel of
an `Except`; the tool manager is a function returning `Except`, whose
`error` branch models an exception raised inside a tool execution.

Part II models the Tool Registry and the content-search retrieval tool.
Their implementation file (search_tools.py) is not part of the sources
here, only its test suite is, so those definitions are modelled from the
spec, guided by the behaviour the tests pin down.
-/

/-- One content block of an engine response: a text block, or a tool-use
block carrying an id, a tool name and an argument map. -/
inductive ContentBlock where
  | text : String → ContentBlock
  | tool_use : String → String → List (String × String) → ContentBlock
deriving DecidableEq

/-- An engine response: stop reason plus content blocks. -/
structure EngineResponse where
  stop_reason : String
  content : List ContentBlock
deriving DecidableEq

/-- One tool result entry as appended to the message history. -/
structure ToolResultMsg where
  tool_use_id : String
  content : String
deriving DecidableEq

/-- The payload of one message in the conversation history. -/
inductive MessageContent where
  | text : String → MessageContent
  | blocks : List ContentBlock → MessageContent
  | tool_results : List ToolResultMsg → MessageContent
deriving DecidableEq

/-- One message of the conversation history. -/
structure Message where
  role : String
  content : MessageContent
deriving DecidableEq

/-- The observable shape of one `messages.create` request: its message
list, and whether the `tools` and `tool_choice` parameters were present. -/
structure ApiRequest where
  messages : List Message
  has_tools : Bool
  has_tool_choice : Bool
deriving DecidableEq

/-- Python-level failures of `response.content[0].text`: an empty content
list raises an index error, a first block without a `text` attribute
raises an attribute error. -/
inductive PyError where
  | indexError
  | attributeError
deriving DecidableEq

/-- One attempted tool execution (tool name and arguments). -/
structure ToolCall where
  name : String
  input : List (String × String)
deriving DecidableEq

/-- The observable outcome of a run: the returned answer (or raised
error), the log of engine requests in order, and the log of attempted
tool executions in order. -/
structure RunOutcome where
  answer : Except PyError String
  requests : List ApiRequest
  tool_calls : List ToolCall

/-- The engine script: response to the i-th `messages.create` call. -/
abbrev Engine := Nat → EngineResponse

/-- The tool manager: `Except.error` models an exception raised inside
`execute_tool`, `Except.ok` a normal string return. -/
abbrev ToolMgrFn := String → List (String × String) → Except String String

/-- `response.content[0].text` of the Python source: the text of the
first content block, or the raised Python error. -/
def firstBlockText : List ContentBlock → Except PyError String
  | [] => Except.error PyError.indexError
  | ContentBlock.text t :: _ => Except.ok t
  | ContentBlock.tool_use _ _ _ :: _ => Except.error PyError.attributeError

/-- The scan of `generate_response` lines 109-111: first block that has a
`text` attribute. -/
def firstTextBlock : List ContentBlock → Option String
  | [] => none
  | ContentBlock.text t :: _ => some t
  | ContentBlock.tool_use _ _ _ :: rest => firstTextBlock rest

/-- The fixed apology string returned when a tool execution fails
(ai_generator.py line 163). -/
def apologyText : String :=
  "I encountered an error while searching for information. Please try again."

/-- The fallback string of the tools-without-tool-manager path
(ai_generator.py line 114). -/
def noToolMgrFallback : String :=
  "Tools were requested but no tool manager was provided to execute them."

/-- Embedding of `AIGenerator._execute_tools`: walk the content blocks in
order, execute each tool-use block sequentially; on the first execution
that raises, stop and signal failure with `none` (the attempted calls up
to and including the failing one are logged in the first component). -/
def execute_tools (tm : ToolMgrFn) :
    List ContentBlock → List ToolCall × Option (List ToolResultMsg)
  | [] => ([], some [])
  | ContentBlock.text _ :: rest => execute_tools tm rest
  | ContentBlock.tool_use id name input :: rest =>
      match tm name input with
      | Except.error _ => ([⟨name, input⟩], none)
      | Except.ok r =>
          let s := execute_tools tm rest
          (⟨name, input⟩ :: s.fst, s.snd.map (fun rs => ⟨id, r⟩ :: rs))

/-- The tool-use blocks of a content list, as tool calls in emission
order. -/
def invocationsOf : List ContentBlock → List ToolCall
  | [] => []
  | ContentBlock.text _ :: rest => invocationsOf rest
  | ContentBlock.tool_use _ name input :: rest => ⟨name, input⟩ :: invocationsOf rest

/-- The ids of the tool-use blocks of a content list, in emission order. -/
def invocationIds : List ContentBlock → List String
  | [] => []
  | ContentBlock.text _ :: rest => invocationIds rest
  | ContentBlock.tool_use id _ _ :: rest => id :: invocationIds rest

/-- Embedding of `AIGenerator._execute_sequential_rounds`.  `callIdx` is
the index of the next engine call, `fuel` the number of loop iterations
still allowed (`max_rounds - current_round`; the loop body runs while
`current_round < max_rounds`).  When fuel is exhausted the final
synthesis call is issued without tools. -/
def execute_sequential_rounds (engine : Engine) (tm : ToolMgrFn)
    (messages : List Message) (callIdx : Nat) : Nat → RunOutcome
  | 0 =>
      { answer := firstBlockText (engine callIdx).content
        requests := [⟨messages, false, false⟩]
        tool_calls := [] }
  | fuel + 1 =>
      let resp := engine callIdx
      if resp.stop_reason ≠ "tool_use" then
        { answer := firstBlockText resp.content
          requests := [⟨messages, true, true⟩]
          tool_calls := [] }
      else
        match execute_tools tm resp.content with
        | (calls, none) =>
            { answer := Except.ok apologyText
              requests := [⟨messages, true, true⟩]
              tool_calls := calls }
        | (calls, some trs) =>
            let rest := execute_sequential_rounds engine tm
              ((messages ++ [⟨"assistant", MessageContent.blocks resp.content⟩]) ++
                [⟨"user", MessageContent.tool_results trs⟩]) (callIdx + 1) fuel
            { answer := rest.answer
              requests := ⟨messages, true, true⟩ :: rest.requests
              tool_calls := calls ++ rest.tool_calls }

/-- Embedding of `AIGenerator.generate_response`.  `tools` is the
truthiness of the supplied tool list; when tools and a tool manager are
both present the sequential-rounds loop runs, otherwise a single call is
made (with the `tools`/`tool_choice` parameters present exactly when a
tool list was supplied) and the response is scanned for a first text
block, with a fixed fallback string when none is found. -/
def generate_response (engine : Engine) (query : String)
    (tools : Bool) (tool_manager : Option ToolMgrFn) (max_rounds : Nat) : RunOutcome :=
  match tools, tool_manager with
  | true, some tm =>
      execute_sequential_rounds engine tm
        [⟨"user", MessageContent.text query⟩] 0 max_rounds
  | _, _ =>
      { answer := Except.ok ((firstTextBlock (engine 0).content).getD noToolMgrFallback)
        requests := [⟨[⟨"user", MessageContent.text query⟩], tools, tools⟩]
        tool_calls := [] }

/-- Tool results accumulated in round `i` (meaningful when that round
executed its tools successfully). -/
def resultsOf (engine : Engine) (tm : ToolMgrFn) (i : Nat) : List ToolResultMsg :=
  ((execute_tools tm (engine i).content).snd).getD []

/-- The message history after `i` successful tool-executing rounds: the
user query, then per round the assistant tool-use turn followed by the
user tool-results turn. -/
def msgsUpTo (engine : Engine) (tm : ToolMgrFn) (query : String) : Nat → List Message
  | 0 => [⟨"user", MessageContent.text query⟩]
  | i + 1 => msgsUpTo engine tm query i ++
      [⟨"assistant", MessageContent.blocks (engine i).content⟩,
       ⟨"user", MessageContent.tool_results (resultsOf engine tm i)⟩]

theorem esr_zero (engine : Engine) (tm : ToolMgrFn) (messages : List Message)
    (callIdx : Nat) :
    execute_sequential_rounds engine tm messages callIdx 0 =
      { answer := firstBlockText (engine callIdx).content
        requests := [⟨messages, false, false⟩]
        tool_calls := [] } := rfl

theorem esr_stop (engine : Engine) (tm : ToolMgrFn) (messages : List Message)
    (callIdx fuel : Nat) (h : (engine callIdx).stop_reason ≠ "tool_use") :
    execute_sequential_rounds engine tm messages callIdx (fuel + 1) =
      { answer := firstBlockText (engine callIdx).content
        requests := [⟨messages, true, true⟩]
        tool_calls := [] } := by
  simp [execute_sequential_rounds, h]

theorem esr_fail (engine : Engine) (tm : ToolMgrFn) (messages : List Message)
    (callIdx fuel : Nat) (calls : List ToolCall)
    (hs : (engine callIdx).stop_reason = "tool_use")
    (hf : execute_tools tm (engine callIdx).content = (calls, none)) :
    execute_sequential_rounds engine tm messages callIdx (fuel + 1) =
      { answer := Except.ok apologyText
        requests := [⟨messages, true, true⟩]
        tool_calls := calls } := by
  simp [execute_sequential_rounds, hs, hf]

theorem esr_cont (engine : Engine) (tm : ToolMgrFn) (messages : List Message)
    (callIdx fuel : Nat) (calls : List ToolCall) (trs : List ToolResultMsg)
    (hs : (engine callIdx).stop_reason = "tool_use")
    (hf : execute_tools tm (engine callIdx).content = (calls, some trs)) :
    execute_sequential_rounds engine tm messages callIdx (fuel + 1) =
      { answer := (execute_sequential_rounds engine tm
          ((messages ++ [⟨"assistant", MessageContent.blocks (engine callIdx).content⟩]) ++
            [⟨"user", MessageContent.tool_results trs⟩]) (callIdx + 1) fuel).answer
        requests := ⟨messages, true, true⟩ :: (execute_sequential_rounds engine tm
          ((messages ++ [⟨"assistant", MessageContent.blocks (engine callIdx).content⟩]) ++
            [⟨"user", MessageContent.tool_results trs⟩]) (callIdx + 1) fuel).requests
        tool_calls := calls ++ (execute_sequential_rounds engine tm
          ((messages ++ [⟨"assistant", MessageContent.blocks (engine callIdx).content⟩]) ++
            [⟨"user", MessageContent.tool_results trs⟩]) (callIdx + 1) fuel).tool_calls } := by
  simp [execute_sequential_rounds, hs, hf]

/-- Workhorse lemma: if the first `i` rounds starting at call index `k`
all request tool use and execute their tools successfully, then the run
performs those `i` rounds (logging one tools-on request and that round's
tool calls each) and continues as a run starting after them. -/
theorem reach_round (engine : Engine) (tm : ToolMgrFn) (query : String) :
    ∀ (i : Nat), ∀ (k n : Nat), i ≤ n →
    (∀ p, k ≤ p → p < k + i →
       (engine p).stop_reason = "tool_use" ∧
       ((execute_tools tm (engine p).content).snd).isSome) →
    execute_sequential_rounds engine tm (msgsUpTo engine tm query k) k n =
      { answer := (execute_sequential_rounds engine tm
          (msgsUpTo engine tm query (k + i)) (k + i) (n - i)).answer
        requests := (List.range' k i).map
            (fun j => ⟨msgsUpTo engine tm query j, true, true⟩) ++
          (execute_sequential_rounds engine tm
            (msgsUpTo engine tm query (k + i)) (k + i) (n - i)).requests
        tool_calls := ((List.range' k i).map
            (fun j => (execute_tools tm (engine j).content).fst)).flatten ++
          (execute_sequential_rounds engine tm
            (msgsUpTo engine tm query (k + i)) (k + i) (n - i)).tool_calls } := by
  intro i
  induction i with
  | zero =>
      intro k n _ _
      simp [List.range']
  | succ i ih =>
      intro k n hin h
      obtain ⟨m, rfl⟩ : ∃ m, n = m + 1 := ⟨n - 1, by omega⟩
      have hk := h k (Nat.le_refl k) (by omega)
      obtain ⟨trs, htrs⟩ := Option.isSome_iff_exists.mp hk.2
      have hf : execute_tools tm (engine k).content =
          ((execute_tools tm (engine k).content).fst, some trs) := by
        rw [← htrs]
      have hres : resultsOf engine tm k = trs := by
        simp [resultsOf, htrs]
      have hmsgs : (msgsUpTo engine tm query k ++
          [⟨"assistant", MessageContent.blocks (engine k).content⟩]) ++
          [⟨"user", MessageContent.tool_results trs⟩] =
          msgsUpTo engine tm query (k + 1) := by
        simp [msgsUpTo, hres]
      rw [esr_cont engine tm _ k m _ trs hk.1 hf, hmsgs]
      have hih := ih (k + 1) m (by omega) (by
        intro p hp1 hp2
        exact h p (by omega) (by omega))
      have harith1 : k + 1 + i = k + (i + 1) := by omega
      have harith2 : m - i = m + 1 - (i + 1) := by omega
      rw [harith1, harith2] at hih
      rw [hih]
      rw [List.range'_succ]
      simp

/-- Full-run characterization: when all `R` rounds request tool use and
execute successfully, the run makes the `R` tools-on calls followed by
one final synthesis call without tools, and its message histories are
the `msgsUpTo` prefixes. -/
theorem run_characterization (engine : Engine) (tm : ToolMgrFn) (query : String)
    (R : Nat)
    (h : ∀ p, p < R → (engine p).stop_reason = "tool_use" ∧
       ((execute_tools tm (engine p).content).snd).isSome) :
    generate_response engine query true (some tm) R =
      { answer := firstBlockText (engine R).content
        requests := (List.range' 0 R).map
            (fun j => ⟨msgsUpTo engine tm query j, true, true⟩) ++
          [⟨msgsUpTo engine tm query R, false, false⟩]
        tool_calls := ((List.range' 0 R).map
            (fun j => (execute_tools tm (engine j).content).fst)).flatten } := by
  have hstart : generate_response engine query true (some tm) R =
      execute_sequential_rounds engine tm (msgsUpTo engine tm query 0) 0 R := rfl
  rw [hstart, reach_round engine tm query R 0 R (Nat.le_refl R)
    (by intro p _ hp; exact h p (by omega))]
  simp [esr_zero]

/-- C1: if the reasoning engine requests tool use in each of the
configured maximum `R` rounds and every tool execution succeeds, exactly
`R + 1` engine calls are made (the request log has `R + 1` entries, one
per `messages.create` call), and the final request carries neither the
tools parameter nor the tool-choice parameter. -/
theorem claim1_max_rounds_calls (engine : Engine) (tm : ToolMgrFn) (query : String)
    (R : Nat)
    (h : ∀ p, p < R → (engine p).stop_reason = "tool_use" ∧
       ((execute_tools tm (engine p).content).snd).isSome) :
    (generate_response engine query true (some tm) R).requests.length = R + 1 ∧
    ∃ r, (generate_response engine query true (some tm) R).requests.getLast? = some r ∧
      r.has_tools = false ∧ r.has_tool_choice = false := by
  rw [run_characterization engine tm query R h]
  refine ⟨by simp, ⟨⟨msgsUpTo engine tm query R, false, false⟩, by simp, rfl, rfl⟩⟩

/-- Engine script for the witnesses of the all-rounds-tool-use runs: two
tool-use rounds, then a plain text answer. -/
def engA : Engine := fun i =>
  if i < 2 then
    { stop_reason := "tool_use"
      content := [ContentBlock.tool_use "toolu_1" "search_course_content"
        [("query", "python")]] }
  else
    { stop_reason := "end_turn"
      content := [ContentBlock.text "Final synthesized answer"] }

/-- A tool manager whose every execution succeeds. -/
def tmA : ToolMgrFn := fun _ _ => Except.ok "Search result"

theorem claim1_witness :
    (∀ p, p < 2 → (engA p).stop_reason = "tool_use" ∧
       ((execute_tools tmA (engA p).content).snd).isSome) ∧
    ((generate_response engA "q" true (some tmA) 2).requests.length = 2 + 1 ∧
     ∃ r, (generate_response engA "q" true (some tmA) 2).requests.getLast? = some r ∧
       r.has_tools = false ∧ r.has_tool_choice = false) :=
  ⟨by decide, claim1_max_rounds_calls engA tmA "q" 2 (by decide)⟩

/-- C2: with tools and a tool manager, if the first engine response has a
stop signal other than tool-use, exactly one engine call is made, no tool
is ever executed, and the answer is the text of the first content block
of that response. -/
theorem claim2_single_round (engine : Engine) (tm : ToolMgrFn) (query : String)
    (R : Nat) (t : String) (rest : List ContentBlock)
    (hstop : (engine 0).stop_reason ≠ "tool_use")
    (hcontent : (engine 0).content = ContentBlock.text t :: rest) :
    (generate_response engine query true (some tm) R).requests.length = 1 ∧
    (generate_response engine query true (some tm) R).tool_calls = [] ∧
    (generate_response engine query true (some tm) R).answer = Except.ok t := by
  cases R with
  | zero =>
      have hz : generate_response engine query true (some tm) 0 =
          execute_sequential_rounds engine tm
            [⟨"user", MessageContent.text query⟩] 0 0 := rfl
      rw [hz, esr_zero]
      simp [hcontent, firstBlockText]
  | succ m =>
      have hs : generate_response engine query true (some tm) (m + 1) =
          execute_sequential_rounds engine tm
            [⟨"user", MessageContent.text query⟩] 0 (m + 1) := rfl
      rw [hs, esr_stop engine tm _ 0 m hstop]
      simp [hcontent, firstBlockText]

/-- Engine script whose first response is a direct text answer. -/
def engB : Engine := fun _ =>
  { stop_reason := "end_turn"
    content := [ContentBlock.text "This is a direct answer without tools"] }

theorem claim2_witness :
    ((engB 0).stop_reason ≠ "tool_use" ∧
     (engB 0).content = ContentBlock.text "This is a direct answer without tools" :: []) ∧
    ((generate_response engB "What is Python?" true (some tmA) 2).requests.length = 1 ∧
     (generate_response engB "What is Python?" true (some tmA) 2).tool_calls = [] ∧
     (generate_response engB "What is Python?" true (some tmA) 2).answer =
       Except.ok "This is a direct answer without tools") :=
  ⟨⟨by decide, rfl⟩,
   claim2_single_round engB tmA "What is Python?" 2
     "This is a direct answer without tools" [] (by decide) rfl⟩

/-- On a failing execution, the attempted tool calls are exactly the
emitted invocations up to and including the first failing one: every
invocation before it succeeded, the failing one raised, and none of the
invocations after it was attempted. -/
theorem execute_tools_none_structure (tm : ToolMgrFn) :
    ∀ c : List ContentBlock, (execute_tools tm c).snd = none →
    ∃ pre failing post,
      invocationsOf c = pre ++ failing :: post ∧
      (execute_tools tm c).fst = pre ++ [failing] ∧
      (∃ msg, tm failing.name failing.input = Except.error msg) ∧
      (∀ x ∈ pre, ∃ r, tm x.name x.input = Except.ok r) := by
  intro c
  induction c with
  | nil => intro h; simp [execute_tools] at h
  | cons b rest ih =>
      cases b with
      | text t =>
          intro h
          simp only [execute_tools] at h ⊢
          obtain ⟨pre, failing, post, h1, h2, h3, h4⟩ := ih h
          exact ⟨pre, failing, post, by simpa [invocationsOf] using h1, h2, h3, h4⟩
      | tool_use id name input =>
          intro h
          simp only [execute_tools] at h ⊢
          cases htm : tm name input with
          | error msg =>
              refine ⟨[], ⟨name, input⟩, invocationsOf rest, by simp [invocationsOf], ?_, ⟨msg, htm⟩, by simp⟩
              simp [htm]
          | ok r =>
              rw [htm] at h
              rw [Option.map_eq_none'] at h
              obtain ⟨pre, failing, post, h1, h2, h3, h4⟩ := ih h
              refine ⟨⟨name, input⟩ :: pre, failing, post, ?_, ?_, h3, ?_⟩
              · simp [invocationsOf, h1]
              · simp [htm, h2]
              · intro x hx
                rcases List.mem_cons.mp hx with hx | hx
                · exact ⟨r, by rw [hx]; exact htm⟩
                · exact h4 x hx

/-- C3: if some tool execution raises in a round, the loop returns the
fixed apology string, the invocations after the failing one in that round
are never attempted, and no further engine calls are made: a failure in
round `i + 1` (after `i` successful tool rounds) of an `R`-round
configuration leaves exactly `i + 1` engine calls in the log. -/
theorem claim3_tool_failure_aborts (engine : Engine) (tm : ToolMgrFn) (query : String)
    (R i : Nat) (hiR : i < R)
    (hprev : ∀ p, p < i → (engine p).stop_reason = "tool_use" ∧
       ((execute_tools tm (engine p).content).snd).isSome)
    (hstop : (engine i).stop_reason = "tool_use")
    (hfail : (execute_tools tm (engine i).content).snd = none) :
    (generate_response engine query true (some tm) R).answer = Except.ok apologyText ∧
    (generate_response engine query true (some tm) R).requests.length = i + 1 ∧
    (∃ pre failing post,
        invocationsOf (engine i).content = pre ++ failing :: post ∧
        (generate_response engine query true (some tm) R).tool_calls =
          ((List.range' 0 i).map
            (fun j => (execute_tools tm (engine j).content).fst)).flatten ++
          (pre ++ [failing]) ∧
        (∃ msg, tm failing.name failing.input = Except.error msg) ∧
        (∀ x ∈ pre, ∃ r, tm x.name x.input = Except.ok r)) := by
  have hstart : generate_response engine query true (some tm) R =
      execute_sequential_rounds engine tm (msgsUpTo engine tm query 0) 0 R := rfl
  have hreach := reach_round engine tm query i 0 R (by omega)
    (by intro p _ hp; exact hprev p (by omega))
  obtain ⟨m, hm⟩ : ∃ m, R - i = m + 1 := ⟨R - i - 1, by omega⟩
  have hf : execute_tools tm (engine i).content =
      ((execute_tools tm (engine i).content).fst, none) := by
    rw [← hfail]
  rw [hm] at hreach
  simp only [Nat.zero_add] at hreach
  rw [esr_fail engine tm _ i m _ hstop hf] at hreach
  obtain ⟨pre, failing, post, h1, h2, h3, h4⟩ :=
    execute_tools_none_structure tm (engine i).content hfail
  rw [hstart, hreach]
  refine ⟨rfl, by simp, pre, failing, post, h1, ?_, h3, h4⟩
  simp [h2]

/-- Index into a mapped range followed by one final element. -/
theorem getD_map_range_append {α : Type} (f : Nat → α) (x d : α) (R k : Nat)
    (hk : k ≤ R) :
    (((List.range' 0 R).map f) ++ [x]).getD k d = if k < R then f k else x := by
  by_cases h : k < R
  · rw [List.getD_append _ _ _ _ (by simpa using h), if_pos h]
    rw [List.getD_eq_getElem?_getD, List.getElem?_map]
    simp [List.getElem?_range', h]
  · have hkR : k = R := by omega
    subst hkR
    rw [List.getD_append_right _ _ _ _ (by simp), if_neg h]
    simp

theorem msgsUpTo_length (engine : Engine) (tm : ToolMgrFn) (query : String) :
    ∀ k, (msgsUpTo engine tm query k).length = 1 + 2 * k := by
  intro k
  induction k with
  | zero => rfl
  | succ k ih => simp [msgsUpTo, ih]; omega

theorem msgsUpTo_getD_role (engine : Engine) (tm : ToolMgrFn) (query : String) :
    ∀ k j, j < 1 + 2 * k →
    ((msgsUpTo engine tm query k).getD j ⟨"", MessageContent.text ""⟩).role =
      if j % 2 = 0 then "user" else "assistant" := by
  intro k
  induction k with
  | zero =>
      intro j hj
      have hj0 : j = 0 := by omega
      subst hj0
      rfl
  | succ k ih =>
      intro j hj
      by_cases h : j < 1 + 2 * k
      · have hlen : j < (msgsUpTo engine tm query k).length := by
          rw [msgsUpTo_length]; omega
        show ((msgsUpTo engine tm query k ++ _).getD j _).role = _
        rw [List.getD_append _ _ _ _ hlen]
        exact ih j h
      · have hlen : (msgsUpTo engine tm query k).length ≤ j := by
          rw [msgsUpTo_length]; omega
        show ((msgsUpTo engine tm query k ++ _).getD j _).role = _
        rw [List.getD_append_right _ _ _ _ hlen, msgsUpTo_length]
        rcases (by omega : j = 1 + 2 * k ∨ j = 2 + 2 * k) with hj1 | hj2
        · have hsub : j - (1 + 2 * k) = 0 := by omega
          have hmod : j % 2 = 1 := by omega
          rw [hsub, hmod]
          rfl
        · have hsub : j - (1 + 2 * k) = 1 := by omega
          have hmod : j % 2 = 0 := by omega
          rw [hsub, hmod]
          rfl

theorem msgsUpTo_getD_stable (engine : Engine) (tm : ToolMgrFn) (query : String)
    (dm : Message) :
    ∀ K k j, k ≤ K → j < 1 + 2 * k →
    (msgsUpTo engine tm query K).getD j dm = (msgsUpTo engine tm query k).getD j dm := by
  intro K
  induction K with
  | zero =>
      intro k j hk _
      have : k = 0 := by omega
      subst this
      rfl
  | succ K ih =>
      intro k j hk hj
      by_cases hkK : k = K + 1
      · subst hkK; rfl
      · have hk' : k ≤ K := by omega
        have hlen : j < (msgsUpTo engine tm query K).length := by
          rw [msgsUpTo_length]; omega
        show (msgsUpTo engine tm query K ++ _).getD j dm = _
        rw [List.getD_append _ _ _ _ hlen]
        exact ih k j hk' hj

theorem msgsUpTo_pair (engine : Engine) (tm : ToolMgrFn) (query : String) (i : Nat) :
    (msgsUpTo engine tm query (i + 1)).getD (2 * i + 1) ⟨"", MessageContent.text ""⟩ =
      ⟨"assistant", MessageContent.blocks (engine i).content⟩ ∧
    (msgsUpTo engine tm query (i + 1)).getD (2 * i + 2) ⟨"", MessageContent.text ""⟩ =
      ⟨"user", MessageContent.tool_results (resultsOf engine tm i)⟩ := by
  constructor
  · show (msgsUpTo engine tm query i ++ _).getD _ _ = _
    rw [List.getD_append_right _ _ _ _ (by rw [msgsUpTo_length]; omega), msgsUpTo_length]
    have hsub : 2 * i + 1 - (1 + 2 * i) = 0 := by omega
    rw [hsub]
    rfl
  · show (msgsUpTo engine tm query i ++ _).getD _ _ = _
    rw [List.getD_append_right _ _ _ _ (by rw [msgsUpTo_length]; omega), msgsUpTo_length]
    have hsub : 2 * i + 2 - (1 + 2 * i) = 1 := by omega
    rw [hsub]
    rfl

/-- On a successful execution, the tool results carry exactly the ids of
the emitted tool invocations, in order. -/
theorem execute_tools_ids (tm : ToolMgrFn) :
    ∀ c rs, (execute_tools tm c).snd = some rs →
    rs.map (fun r => r.tool_use_id) = invocationIds c := by
  intro c
  induction c with
  | nil =>
      intro rs h
      simp only [execute_tools] at h
      cases h
      rfl
  | cons b rest ih =>
      cases b with
      | text t =>
          intro rs h
          simp only [execute_tools] at h
          simpa [invocationIds] using ih rs h
      | tool_use id name input =>
          intro rs h
          simp only [execute_tools] at h
          cases htm : tm name input with
          | error m => rw [htm] at h; simp at h
          | ok r =>
              rw [htm] at h
              obtain ⟨rs', hrs', hcons⟩ := Option.map_eq_some'.mp h
              subst hcons
              simp [invocationIds, ih rs' hrs']

/-- C4: in a run whose `R` rounds all execute tools successfully, the
message history grows by exactly two turns per round: the history sent
with the k-th call has `1 + 2k` turns with roles alternating user,
assistant, user, ...; and in the final history, round i contributed the
assistant turn carrying the tool invocations followed by one turn whose
tool results are tagged with exactly those invocations' ids, in emission
order. -/
theorem claim4_message_structure (engine : Engine) (tm : ToolMgrFn) (query : String)
    (R : Nat)
    (h : ∀ p, p < R → (engine p).stop_reason = "tool_use" ∧
       ((execute_tools tm (engine p).content).snd).isSome) :
    (∀ k, k ≤ R →
       (((generate_response engine query true (some tm) R).requests.getD k
          ⟨[], false, false⟩).messages).length = 1 + 2 * k) ∧
    (∀ k, k ≤ R → ∀ j, j < 1 + 2 * k →
       ((((generate_response engine query true (some tm) R).requests.getD k
          ⟨[], false, false⟩).messages).getD j ⟨"", MessageContent.text ""⟩).role =
         if j % 2 = 0 then "user" else "assistant") ∧
    (∀ i, i < R → ∃ rs,
       (((generate_response engine query true (some tm) R).requests.getD R
          ⟨[], false, false⟩).messages).getD (2 * i + 1) ⟨"", MessageContent.text ""⟩ =
         ⟨"assistant", MessageContent.blocks (engine i).content⟩ ∧
       (((generate_response engine query true (some tm) R).requests.getD R
          ⟨[], false, false⟩).messages).getD (2 * i + 2) ⟨"", MessageContent.text ""⟩ =
         ⟨"user", MessageContent.tool_results rs⟩ ∧
       rs.map (fun r => r.tool_use_id) = invocationIds (engine i).content) := by
  have hchar := run_characterization engine tm query R h
  have hmsg : ∀ k, k ≤ R →
      ((generate_response engine query true (some tm) R).requests.getD k
        ⟨[], false, false⟩).messages = msgsUpTo engine tm query k := by
    intro k hk
    rw [hchar]
    show ((((List.range' 0 R).map
      (fun j => ApiRequest.mk (msgsUpTo engine tm query j) true true)) ++
      [ApiRequest.mk (msgsUpTo engine tm query R) false false]).getD k (ApiRequest.mk [] false false)).messages = _
    rw [getD_map_range_append _ _ _ R k hk]
    by_cases hkR : k < R
    · rw [if_pos hkR]
    · rw [if_neg hkR]
      have : k = R := by omega
      subst this
      rfl
  refine ⟨?_, ?_, ?_⟩
  · intro k hk
    rw [hmsg k hk, msgsUpTo_length]
  · intro k hk j hj
    rw [hmsg k hk]
    exact msgsUpTo_getD_role engine tm query k j hj
  · intro i hi
    obtain ⟨rs, hrs⟩ := Option.isSome_iff_exists.mp (h i hi).2
    have hres : resultsOf engine tm i = rs := by
      simp [resultsOf, hrs]
    refine ⟨rs, ?_, ?_, execute_tools_ids tm (engine i).content rs hrs⟩
    · rw [hmsg R (Nat.le_refl R),
        msgsUpTo_getD_stable engine tm query _ R (i + 1) (2 * i + 1) (by omega) (by omega)]
      exact (msgsUpTo_pair engine tm query i).1
    · rw [hmsg R (Nat.le_refl R),
        msgsUpTo_getD_stable engine tm query _ R (i + 1) (2 * i + 2) (by omega) (by omega)]
      rw [(msgsUpTo_pair engine tm query i).2, hres]

theorem claim4_witness :
    (∀ p, p < 2 → (engA p).stop_reason = "tool_use" ∧
       ((execute_tools tmA (engA p).content).snd).isSome) ∧
    ((∀ k, k ≤ 2 →
       (((generate_response engA "q" true (some tmA) 2).requests.getD k
          ⟨[], false, false⟩).messages).length = 1 + 2 * k) ∧
     (∀ k, k ≤ 2 → ∀ j, j < 1 + 2 * k →
       ((((generate_response engA "q" true (some tmA) 2).requests.getD k
          ⟨[], false, false⟩).messages).getD j ⟨"", MessageContent.text ""⟩).role =
         if j % 2 = 0 then "user" else "assistant") ∧
     (∀ i, i < 2 → ∃ rs,
       (((generate_response engA "q" true (some tmA) 2).requests.getD 2
          ⟨[], false, false⟩).messages).getD (2 * i + 1) ⟨"", MessageContent.text ""⟩ =
         ⟨"assistant", MessageContent.blocks (engA i).content⟩ ∧
       (((generate_response engA "q" true (some tmA) 2).requests.getD 2
          ⟨[], false, false⟩).messages).getD (2 * i + 2) ⟨"", MessageContent.text ""⟩ =
         ⟨"user", MessageContent.tool_results rs⟩ ∧
       rs.map (fun r => r.tool_use_id) = invocationIds (engA i).content)) :=
  ⟨by decide, claim4_message_structure engA tmA "q" 2 (by decide)⟩

/-- Engine whose responses stop without tool use but carry no content. -/
def engEmpty : Engine := fun _ => { stop_reason := "end_turn", content := [] }

/-- Engine whose responses stop without tool use but whose first block
has no text attribute. -/
def engNoText : Engine := fun _ =>
  { stop_reason := "end_turn"
    content := [ContentBlock.tool_use "toolu_2" "search_course_content" []] }

/-- Engine with two tool-use rounds whose final synthesis response is
empty. -/
def engToolThenEmpty : Engine := fun i =>
  if i < 2 then
    { stop_reason := "tool_use"
      content := [ContentBlock.tool_use "toolu_3" "search_course_content" []] }
  else { stop_reason := "end_turn", content := [] }

/-- Engine that always requests tool use and emits no text block. -/
def engToolUse : Engine := fun _ =>
  { stop_reason := "tool_use"
    content := [ContentBlock.tool_use "toolu_4" "search_course_content" []] }

/-- C10: the answer-returning paths of the round loop and of the final
synthesis take `content[0].text` unguarded — an empty content list raises
an index error, a first block without text raises an attribute error —
while the degenerate tools-without-tool-manager path scans all blocks and
substitutes the fixed fallback string when no text block exists. -/
theorem claim10_unguarded_first_block :
    (generate_response engEmpty "q" true (some tmA) 2).answer =
      Except.error PyError.indexError ∧
    (generate_response engNoText "q" true (some tmA) 2).answer =
      Except.error PyError.attributeError ∧
    (generate_response engToolThenEmpty "q" true (some tmA) 2).answer =
      Except.error PyError.indexError ∧
    (generate_response engToolUse "q" true none 2).answer =
      Except.ok noToolMgrFallback ∧
    (generate_response engToolUse "q" true none 2).requests.length = 1 :=
  ⟨rfl, rfl, rfl, rfl, rfl⟩

/- Part II.  The Tool Registry and the content-search retrieval tool.
Their implementation file (backend/search_tools.py) is not among the
sources; the definitions below are modelled from the spec (sections 3,
4.1 and 4.3), using the vocabulary its own test suite
(backend/tests/test_search_tools.py) pins down. -/

/-- A single-quote character, used in the formatted strings below. -/
def squote : String := String.singleton (Char.ofNat 39)

/-- Modelled from the spec: the metadata map attached to one retrieved
document by the missing search_tools.py/vector_store.py layer; either key
may be absent. -/
structure MetaEntry where
  course_title : Option String
  lesson_number : Option Int
deriving DecidableEq

/-- Modelled from the spec: the SearchOutcome record returned by the
semantic index (missing vector_store.py, `SearchResults` in the tests):
ranked documents, their metadata, their distances, and an optional error
string. -/
structure SearchResults where
  documents : List String
  metadata : List MetaEntry
  distances : List Float
  error : Option String

/-- Modelled from the spec: the narrow semantic-index interface the
content-search tool consumes (missing vector_store.py): a filtered
search, and a lesson-link lookup. -/
structure VectorStore where
  search : String → Option String → Option Int → SearchResults
  get_lesson_link : String → Int → Option String

namespace CourseSearchTool

/-- Modelled from the spec: the course title of a metadata entry, with
the placeholder value used when the key is absent. -/
def titleOf (m : MetaEntry) : String := m.course_title.getD "unknown"

/-- Modelled from the spec: one SourceRecord per (document, metadata)
pair — the course title, with a lesson clause when a lesson number is
present, and a link suffix appended only when the title is a known
(non-placeholder) value, a lesson number is present, and the lesson-link
lookup returns a url. -/
def sourceOf (store : VectorStore) (m : MetaEntry) : String :=
  match m.lesson_number with
  | none => titleOf m
  | some n =>
      let base := titleOf m ++ " - Lesson " ++ toString n
      if titleOf m ≠ "unknown" then
        match store.get_lesson_link (titleOf m) n with
        | some url => base ++ "|" ++ url
        | none => base
      else base

/-- Modelled from the spec: the formatted block for one (document,
metadata) pair — a header naming course and (when present) lesson,
followed by the raw document text. -/
def blockOf (m : MetaEntry) (doc : String) : String :=
  "[" ++ titleOf m ++
    (match m.lesson_number with
     | some n => " - Lesson " ++ toString n
     | none => "") ++ "]\n" ++ doc

/-- Modelled from the spec: `CourseSearchTool.execute` of the missing
search_tools.py.  Issues one semantic-index query; on an error outcome
returns the error string verbatim; on an empty outcome returns a
not-found message naming the supplied filters; on a non-empty outcome
returns the formatted blocks joined by blank lines and replaces the
accumulated SourceRecords with one record per pair.  The second component
is the accumulation (`last_sources`) after the call, which the error and
empty paths leave untouched. -/
def execute (store : VectorStore) (query : String)
    (course_name : Option String) (lesson_number : Option Int)
    (prev_sources : List String) : String × List String :=
  let results := store.search query course_name lesson_number
  match results.error with
  | some e => (e, prev_sources)
  | none =>
      if results.documents.isEmpty then
        let filter_info :=
          (match course_name with
           | some c => " in course " ++ squote ++ c ++ squote
           | none => "") ++
          (match lesson_number with
           | some n => " in lesson " ++ toString n
           | none => "")
        ("No relevant content found" ++ filter_info, prev_sources)
      else
        let pairs := results.documents.zip results.metadata
        (String.intercalate "\n\n" (pairs.map (fun p => blockOf p.snd p.fst)),
         pairs.map (fun p => sourceOf store p.snd))

end CourseSearchTool

/-- Modelled from the spec: a capability schema, whose name may be
absent. -/
structure ToolDef where
  name : Option String
  description : Option String
deriving DecidableEq

/-- Modelled from the spec: a registered tool as the Registry sees it —
its declared schema, its execute entry point, and its SourceRecord
accumulation. -/
structure RegisteredTool where
  tooldef : ToolDef
  run : List (String × String) → String
  last_sources : List String

/-- Modelled from the spec: the configuration failure raised when a tool
is registered whose schema declares no name (a `ValueError` in the test
suite). -/
inductive ConfigurationError where
  | missingToolName
deriving DecidableEq

/-- Modelled from the spec: the Tool Registry (`ToolManager` in the
tests), a name-keyed directory of tools in registration order. -/
structure ToolManager where
  tools : List (String × RegisteredTool)

/-- Name lookup in the registry. -/
def lookupTool : List (String × RegisteredTool) → String → Option RegisteredTool
  | [], _ => none
  | (k, t) :: rest, n => if k = n then some t else lookupTool rest n

/-- Modelled from the spec: `ToolManager.register_tool` — stores the tool
under the name its schema declares, and fails with a configuration error
when the schema has no name. -/
def ToolManager.register_tool (mgr : ToolManager) (t : RegisteredTool) :
    Except ConfigurationError ToolManager :=
  match t.tooldef.name with
  | none => Except.error ConfigurationError.missingToolName
  | some n => Except.ok ⟨mgr.tools ++ [(n, t)]⟩

/-- Modelled from the spec: `ToolManager.execute_tool` — dispatches to
the named tool, and returns (never throws) a descriptive not-found string
when no tool is registered under the name. -/
def ToolManager.execute_tool (mgr : ToolManager) (name : String)
    (args : List (String × String)) : String :=
  match lookupTool mgr.tools name with
  | none => "Tool " ++ squote ++ name ++ squote ++ " not found"
  | some t => t.run args

/-- C5: invoking a name under which no tool is registered returns the
not-found string (and, being a total String-valued function, never
raises). -/
theorem claim5_unknown_tool_soft_failure (mgr : ToolManager) (name : String)
    (args : List (String × String)) (h : lookupTool mgr.tools name = none) :
    mgr.execute_tool name args =
      "Tool " ++ squote ++ name ++ squote ++ " not found" := by
  simp [ToolManager.execute_tool, h]

theorem claim5_witness :
    lookupTool (ToolManager.mk []).tools "nonexistent_tool" = none ∧
    (ToolManager.mk []).execute_tool "nonexistent_tool" [] =
      "Tool " ++ squote ++ "nonexistent_tool" ++ squote ++ " not found" :=
  ⟨rfl, claim5_unknown_tool_soft_failure (ToolManager.mk []) "nonexistent_tool" [] rfl⟩

/-- C6: registering a tool whose capability schema declares no name fails
with a configuration error instead of storing the tool. -/
theorem claim6_register_without_name (mgr : ToolManager) (t : RegisteredTool)
    (h : t.tooldef.name = none) :
    mgr.register_tool t = Except.error ConfigurationError.missingToolName := by
  simp [ToolManager.register_tool, h]

/-- A tool whose schema has a description but no name. -/
def namelessTool : RegisteredTool :=
  { tooldef := { name := none, description := some "No name" }
    run := fun _ => "test result"
    last_sources := [] }

theorem claim6_witness :
    namelessTool.tooldef.name = none ∧
    (ToolManager.mk []).register_tool namelessTool =
      Except.error ConfigurationError.missingToolName :=
  ⟨rfl, claim6_register_without_name (ToolManager.mk []) namelessTool rfl⟩

/-- C7: when the search outcome carries an error, execute returns exactly
that error string and leaves the source accumulation untouched (no
exception: the function is total). -/
theorem claim7_error_verbatim (store : VectorStore) (q : String)
    (cn : Option String) (ln : Option Int) (prev : List String) (e : String)
    (h : (store.search q cn ln).error = some e) :
    (CourseSearchTool.execute store q cn ln prev).fst = e ∧
    (CourseSearchTool.execute store q cn ln prev).snd = prev := by
  constructor <;> simp [CourseSearchTool.execute, h]

/-- A store whose search always fails with a connection error. -/
def errStore : VectorStore :=
  { search := fun _ _ _ =>
      { documents := [], metadata := [], distances := []
        error := some "Vector store connection failed" }
    get_lesson_link := fun _ _ => none }

theorem claim7_witness :
    (errStore.search "test query" none none).error =
      some "Vector store connection failed" ∧
    ((CourseSearchTool.execute errStore "test query" none none []).fst =
       "Vector store connection failed" ∧
     (CourseSearchTool.execute errStore "test query" none none []).snd = []) :=
  ⟨rfl, claim7_error_verbatim errStore "test query" none none []
    "Vector store connection failed" rfl⟩

/-- C8: on an empty outcome with no error, execute returns the not-found
message, suffixed with the course clause when a course filter was
supplied and with the lesson clause when a lesson filter was supplied,
both appended when both filters were supplied. -/
theorem claim8_empty_results_message (store : VectorStore) (q : String)
    (cn : Option String) (ln : Option Int) (prev : List String)
    (herr : (store.search q cn ln).error = none)
    (hempty : (store.search q cn ln).documents = []) :
    (CourseSearchTool.execute store q cn ln prev).fst =
      "No relevant content found" ++
        (match cn with
         | some c => " in course " ++ squote ++ c ++ squote
         | none => "") ++
        (match ln with
         | some n => " in lesson " ++ toString n
         | none => "") := by
  cases cn <;> cases ln <;>
    simp [CourseSearchTool.execute, herr, hempty, String.append_assoc]

/-- A store whose search always returns an empty, error-free outcome. -/
def emptyStore : VectorStore :=
  { search := fun _ _ _ =>
      { documents := [], metadata := [], distances := [], error := none }
    get_lesson_link := fun _ _ => none }

theorem claim8_witness :
    ((emptyStore.search "topic" (some "Machine Learning") (some 3)).error = none ∧
     (emptyStore.search "topic" (some "Machine Learning") (some 3)).documents = []) ∧
    (CourseSearchTool.execute emptyStore "topic" (some "Machine Learning") (some 3) []).fst =
      "No relevant content found" ++
        (" in course " ++ squote ++ "Machine Learning" ++ squote) ++ " in lesson " ++ toString (3 : Int) :=
  ⟨⟨rfl, rfl⟩, claim8_empty_results_message emptyStore "topic"
    (some "Machine Learning") (some 3) [] rfl rfl⟩

/-- Indexing a map over the second components of a zip. -/
theorem getD_map_zip_snd {α β γ : Type} (f : β → γ) (d : γ) (db : β) :
    ∀ (l1 : List α) (l2 : List β) (i : Nat), i < min l1.length l2.length →
    ((l1.zip l2).map (fun p => f p.snd)).getD i d = f (l2.getD i db) := by
  intro l1
  induction l1 with
  | nil => intro l2 i h; simp at h
  | cons a l1 ih =>
      intro l2 i h
      cases l2 with
      | nil => simp at h
      | cons b l2 =>
          cases i with
          | zero => rfl
          | succ i =>
              simp only [List.zip_cons_cons, List.map_cons, List.getD_cons_succ]
              apply ih
              simp at h
              omega

/-- C9 (amended): on a non-empty outcome the tool accumulates exactly
one SourceRecord per (document, metadata) pair; the record is the course
title alone when the pair has no lesson number, the title with the
`- Lesson <n>` clause when it has one, and the `|<url>` suffix is
appended only when the title is a known (non-placeholder) value, a
lesson number is present and the link lookup returns a url. -/
theorem claim9_source_records (store : VectorStore) (q : String)
    (cn : Option String) (ln : Option Int) (prev : List String)
    (herr : (store.search q cn ln).error = none)
    (hne : (store.search q cn ln).documents ≠ []) :
    ((CourseSearchTool.execute store q cn ln prev).snd).length =
      min (store.search q cn ln).documents.length
        (store.search q cn ln).metadata.length ∧
    ∀ i, i < ((CourseSearchTool.execute store q cn ln prev).snd).length →
      ((CourseSearchTool.execute store q cn ln prev).snd).getD i "" =
        (let m := (store.search q cn ln).metadata.getD i ⟨none, none⟩
         let title := m.course_title.getD "unknown"
         match m.lesson_number with
         | none => title
         | some n =>
             if title ≠ "unknown" then
               match store.get_lesson_link title n with
               | some url => title ++ " - Lesson " ++ toString n ++ "|" ++ url
               | none => title ++ " - Lesson " ++ toString n
             else title ++ " - Lesson " ++ toString n) := by
  have hie : (store.search q cn ln).documents.isEmpty = false := by
    cases hd : (store.search q cn ln).documents with
    | nil => exact absurd hd hne
    | cons a l => rfl
  have hsnd : (CourseSearchTool.execute store q cn ln prev).snd =
      ((store.search q cn ln).documents.zip (store.search q cn ln).metadata).map
        (fun p => CourseSearchTool.sourceOf store p.snd) := by
    simp [CourseSearchTool.execute, herr, hie]
  have hlen : ((CourseSearchTool.execute store q cn ln prev).snd).length =
      min (store.search q cn ln).documents.length
        (store.search q cn ln).metadata.length := by
    rw [hsnd]
    simp
  refine ⟨hlen, ?_⟩
  intro i hi
  rw [hlen] at hi
  rw [hsnd, getD_map_zip_snd (CourseSearchTool.sourceOf store) "" ⟨none, none⟩ _ _ i hi]
  cases hm : ((store.search q cn ln).metadata.getD i ⟨none, none⟩).lesson_number with
  | none => simp [CourseSearchTool.sourceOf, CourseSearchTool.titleOf, hm]
  | some n =>
      by_cases ht : ((store.search q cn ln).metadata.getD i
          (MetaEntry.mk none none)).course_title.getD "unknown" = "unknown"
      · simp [CourseSearchTool.sourceOf, CourseSearchTool.titleOf, hm, ht,
          String.append_assoc]
      · cases hl : store.get_lesson_link (((store.search q cn ln).metadata.getD i
            (MetaEntry.mk none none)).course_title.getD "unknown") n with
        | none =>
            simp [CourseSearchTool.sourceOf, CourseSearchTool.titleOf, hm, ht, hl,
              String.append_assoc]
        | some url =>
            simp [CourseSearchTool.sourceOf, CourseSearchTool.titleOf, hm, ht, hl,
              String.append_assoc]

/-- A store returning one document whose metadata has the placeholder
title and no lesson number (the fixture of
test_format_results_without_links). -/
def storeNoLink : VectorStore :=
  { search := fun _ _ _ =>
      { documents := ["Content without link"]
        metadata := [⟨some "unknown", none⟩]
        distances := []
        error := none }
    get_lesson_link := fun _ _ => none }

/-- C9 counterexample: for a pair whose metadata carries no lesson
number, the accumulated SourceRecord is the bare course title, not a
string of the claimed form `<courseTitle> - Lesson <lessonNumber>`. -/
theorem claim9_counterexample :
    (CourseSearchTool.execute storeNoLink "general topic" none none []).snd =
      ["unknown"] ∧
    ¬ ∃ (t : String) (n : Int),
        ((CourseSearchTool.execute storeNoLink "general topic" none none []).snd).getD 0 "" =
          t ++ " - Lesson " ++ toString n := by
  refine ⟨rfl, ?_⟩
  rintro ⟨t, n, h⟩
  have h' : ("unknown" : String) = t ++ " - Lesson " ++ toString n := h
  have hlen := congrArg String.length h'
  rw [String.length_append, String.length_append] at hlen
  have h7 : ("unknown" : String).length = 7 := rfl
  have h10 : (" - Lesson " : String).length = 10 := rfl
  rw [h7, h10] at hlen
  omega

/-- A store with one fully-described result and an available lesson
link. -/
def storeWithLink : VectorStore :=
  { search := fun _ _ _ =>
      { documents := ["Content with link"]
        metadata := [⟨some "Web Development", some 2⟩]
        distances := []
        error := none }
    get_lesson_link := fun _ _ => some "https://example.com/lesson2" }

theorem claim9_witness :
    ((storeWithLink.search "HTML basics" none none).error = none ∧
     (storeWithLink.search "HTML basics" none none).documents ≠ []) ∧
    (((CourseSearchTool.execute storeWithLink "HTML basics" none none []).snd).length =
       min (storeWithLink.search "HTML basics" none none).documents.length
         (storeWithLink.search "HTML basics" none none).metadata.length ∧
     ∀ i, i < ((CourseSearchTool.execute storeWithLink "HTML basics" none none []).snd).length →
      ((CourseSearchTool.execute storeWithLink "HTML basics" none none []).snd).getD i "" =
        (let m := (storeWithLink.search "HTML basics" none none).metadata.getD i ⟨none, none⟩
         let title := m.course_title.getD "unknown"
         match m.lesson_number with
         | none => title
         | some n =>
             if title ≠ "unknown" then
               match storeWithLink.get_lesson_link title n with
               | some url => title ++ " - Lesson " ++ toString n ++ "|" ++ url
               | none => title ++ " - Lesson " ++ toString n
             else title ++ " - Lesson " ++ toString n)) :=
  ⟨⟨rfl, by simp [storeWithLink]⟩,
   claim9_source_records storeWithLink "HTML basics" none none [] rfl
     (by simp [storeWithLink])⟩

/-- Engine script that always requests one tool use. -/
def engC : Engine := fun _ =>
  { stop_reason := "tool_use"
    content := [ContentBlock.tool_use "toolu_9" "search_course_content"
      [("query", "test")]] }

/-- A tool manager whose every execution raises. -/
def tmFail : ToolMgrFn := fun _ _ => Except.error "Tool execution failed"

theorem claim3_witness :
    ((0 : Nat) < 2 ∧
     (engC 0).stop_reason = "tool_use" ∧
     (execute_tools tmFail (engC 0).content).snd = none) ∧
    ((generate_response engC "Test query" true (some tmFail) 2).answer =
       Except.ok apologyText ∧
     (generate_response engC "Test query" true (some tmFail) 2).requests.length = 0 + 1 ∧
     (∃ pre failing post,
        invocationsOf (engC 0).content = pre ++ failing :: post ∧
        (generate_response engC "Test query" true (some tmFail) 2).tool_calls =
          ((List.range' 0 0).map
            (fun j => (execute_tools tmFail (engC j).content).fst)).flatten ++
          (pre ++ [failing]) ∧
        (∃ msg, tmFail failing.name failing.input = Except.error msg) ∧
        (∀ x ∈ pre, ∃ r, tmFail x.name x.input = Except.ok r))) :=
  ⟨⟨by decide, rfl, rfl⟩,
   claim3_tool_failure_aborts engC tmFail "Test query" 2 0 (by decide)
     (by intro p hp; exact absurd hp (Nat.not_lt_zero p)) rfl rfl⟩
